import Mathlib

/-!
Verification of the `aiupdate` tool updater (src/aiupdate.py) against its
natural-language specification.

The program is shallowly embedded: the subprocess-execution boundary is
modelled as an oracle assigning to each spawned command an outcome (normal
completion with exit code and decoded output streams, a timeout, or a raised
execution error), Python's `re` fragment actually exercised by the program is
implemented as an executable backtracking engine with capture groups, the
progress dict is an association list with Python dict semantics, and the
asyncio orchestration (`asyncio.gather` fan-out / join-all over three
sequential phases) is modelled by launch-in-program-order with completions in
an arbitrary permutation of the registry.
-/

namespace AiUpdate

/-- Embedding of `os.path.expanduser`: an OS boundary (depends on `HOME`).
Modelled as the identity on the path text; its value is irrelevant to every
property proved below. -/
def expanduser (path : String) : String := path

/-- Embedding of the `Tool` dataclass (src/aiupdate.py lines 20-26). -/
structure Tool where
  name : String
  command : List String
  cwd : Option String
  version_command : Option (List String)
  version_regex : String
  deriving DecidableEq, Repr

/-- The `codex` entry of the `TOOLS` registry (src/aiupdate.py lines 30-34). -/
def codexTool : Tool :=
  { name := "codex"
    command := ["npm", "update", "-g", "@openai/codex"]
    cwd := none
    version_command := some ["codex", "--version"]
    version_regex := "(\\d+\\.\\d+\\.\\d+)" }

/-- The `gemini` entry of the `TOOLS` registry (src/aiupdate.py lines 35-39). -/
def geminiTool : Tool :=
  { name := "gemini"
    command := ["npm", "update", "-g", "@google/gemini-cli"]
    cwd := none
    version_command := some ["gemini", "--version"]
    version_regex := "(\\d+\\.\\d+\\.\\d+)" }

/-- The `crush` entry of the `TOOLS` registry (src/aiupdate.py lines 40-44). -/
def crushTool : Tool :=
  { name := "crush"
    command := ["brew", "upgrade", "crush"]
    cwd := none
    version_command := some ["crush", "--version"]
    version_regex := "(\\d+\\.\\d+\\.\\d+)" }

/-- The `claude` entry of the `TOOLS` registry (src/aiupdate.py lines 45-50). -/
def claudeTool : Tool :=
  { name := "claude"
    command := ["npm", "update"]
    cwd := some (expanduser "~/.claude/local")
    version_command := some [expanduser "~/.claude/local/claude", "--version"]
    version_regex := "(\\d+\\.\\d+\\.\\d+)" }

/-- Embedding of the `TOOLS` registry (src/aiupdate.py lines 29-51). -/
def TOOLS : List Tool := [codexTool, geminiTool, crushTool, claudeTool]

/-- Embedding of the `UpdateResult` dataclass (src/aiupdate.py lines 54-62). -/
structure UpdateResult where
  tool : Tool
  success : Bool
  stdout : String
  stderr : String
  returncode : Int
  old_version : Option String
  new_version : Option String
  deriving DecidableEq, Repr

/-- Outcome of spawning and awaiting one update command, as decided by the
subprocess-execution boundary: either the process completed with an exit code
and decoded output streams, or spawning/running/decoding raised an exception
carrying a message (`str(e)`). -/
inductive ExecOutcome where
  | completed (returncode : Int) (stdout : String) (stderr : String)
  | raised (msg : String)
  deriving DecidableEq, Repr

/-- Python `x or y` on integers: `x` if truthy (nonzero), else `y`.  Embeds
the expression `proc.returncode or 0` (src/aiupdate.py line 133). -/
def pyOrInt (x y : Int) : Int := if x = 0 then y else x

/-- Embedding of the result construction of `update_tool`
(src/aiupdate.py lines 118-142): the `try` block builds an `UpdateResult`
from the completed process; the `except Exception` block converts any raised
execution error into a failed result with the message as stderr and exit code
fixed at 1. -/
def update_tool_result (tool : Tool) (outcome : ExecOutcome) : UpdateResult :=
  match outcome with
  | ExecOutcome.completed rc out err =>
      { tool := tool
        success := rc == 0
        stdout := out
        stderr := err
        returncode := pyOrInt rc 0
        old_version := none
        new_version := none }
  | ExecOutcome.raised msg =>
      { tool := tool
        success := false
        stdout := ""
        stderr := msg
        returncode := 1
        old_version := none
        new_version := none }

/-- Embedding of `format_version_change` (src/aiupdate.py lines 105-115),
markup included: the source returns rich-markup strings. -/
def format_version_change : Option String → Option String → String
  | none, none => "[dim]unknown[/dim]"
  | none, some new => "[dim]?[/dim] -> [green]" ++ new ++ "[/green]"
  | some old, none => old ++ " -> [dim]?[/dim]"
  | some old, some new =>
      if old = new then "[dim]" ++ old ++ "[/dim]"
      else old ++ " -> [green]" ++ new ++ "[/green]"

/-! ### Regex engine

`get_version` calls `re.search(tool.version_regex, output)` and
`match.group(1)`.  The fragment of Python regex syntax the program (and the
spec's examples) exercise — literal characters, escaped literals, the `\d`
class, `.`, greedy `+`, and numbered capture groups — is implemented here
with Python's leftmost, greedy, backtracking semantics.  Syntax outside the
fragment is rejected by the tokenizer/parser, which `get_version` treats as a
raised `re.error` (caught by its `except Exception`). -/

/-- Regex tokens for the supported fragment. -/
inductive RTok where
  | lpar
  | rpar
  | plusTok
  | dotAny
  | dClass
  | lit (c : Char)
  deriving DecidableEq, Repr

/-- Escaped characters `\c` that Python treats as the literal `c` (the
metacharacters of the fragment, escaped). -/
def escapableLiteral (c : Char) : Bool :=
  c = '.' || c = '\\' || c = '(' || c = ')' || c = '+' || c = '*' || c = '?'
  || c = '[' || c = ']' || c = '|' || c = '^' || c = '$' || c = '-'

/-- Characters that are metacharacters in Python regex syntax beyond the
supported fragment; a pattern using them unescaped is rejected (parse
failure, modelling behaviour outside the fragment conservatively). -/
def unsupportedMeta (c : Char) : Bool :=
  c = '*' || c = '?' || c = '[' || c = ']' || c = '|' || c = '^' || c = '$'
  || c = '\x7b' || c = '\x7d'

/-- Tokenize a pattern string; `none` models a pattern outside the supported
fragment. -/
def rtokenize : List Char → Option (List RTok)
  | [] => some []
  | '\\' :: rest =>
      match rest with
      | [] => none
      | c :: rest2 =>
          if c = 'd' then (rtokenize rest2).map (fun ts => RTok.dClass :: ts)
          else if escapableLiteral c then (rtokenize rest2).map (fun ts => RTok.lit c :: ts)
          else none
  | c :: rest =>
      if c = '(' then (rtokenize rest).map (fun ts => RTok.lpar :: ts)
      else if c = ')' then (rtokenize rest).map (fun ts => RTok.rpar :: ts)
      else if c = '+' then (rtokenize rest).map (fun ts => RTok.plusTok :: ts)
      else if c = '.' then (rtokenize rest).map (fun ts => RTok.dotAny :: ts)
      else if unsupportedMeta c then none
      else (rtokenize rest).map (fun ts => RTok.lit c :: ts)

/-- Abstract syntax of the supported regex fragment.  Group numbers follow
Python: groups are numbered by order of opening parenthesis, starting at 1. -/
inductive Regex where
  | eps
  | lit (c : Char)
  | dClass
  | anyChar
  | seq (a b : Regex)
  | plus (a : Regex)
  | group (n : Nat) (a : Regex)
  deriving DecidableEq, Repr

mutual

/-- Parse a token list as a sequence of atoms (with optional postfix `+`),
stopping at `)` or end of input.  `g` counts groups opened so far; fuel bounds
recursion depth. -/
def parseSeq : Nat → List RTok → Nat → Option (Regex × List RTok × Nat)
  | 0, _, _ => none
  | Nat.succ fuel, toks, g =>
      match toks with
      | [] => some (Regex.eps, [], g)
      | RTok.rpar :: _ => some (Regex.eps, toks, g)
      | _ =>
          match parseAtomPlus fuel toks g with
          | none => none
          | some (a, toks1, g1) =>
              match parseSeq fuel toks1 g1 with
              | none => none
              | some (b, toks2, g2) => some (Regex.seq a b, toks2, g2)

/-- Parse one atom and an optional postfix `+`. -/
def parseAtomPlus : Nat → List RTok → Nat → Option (Regex × List RTok × Nat)
  | 0, _, _ => none
  | Nat.succ fuel, toks, g =>
      match parseAtom fuel toks g with
      | none => none
      | some (a, toks1, g1) =>
          match toks1 with
          | RTok.plusTok :: rest => some (Regex.plus a, rest, g1)
          | _ => some (a, toks1, g1)

/-- Parse one atom: a class, any-char, a literal, or a parenthesised group. -/
def parseAtom : Nat → List RTok → Nat → Option (Regex × List RTok × Nat)
  | 0, _, _ => none
  | Nat.succ fuel, toks, g =>
      match toks with
      | RTok.dClass :: rest => some (Regex.dClass, rest, g)
      | RTok.dotAny :: rest => some (Regex.anyChar, rest, g)
      | RTok.lit c :: rest => some (Regex.lit c, rest, g)
      | RTok.lpar :: rest =>
          match parseSeq fuel rest (g + 1) with
          | none => none
          | some (inner, rest1, g1) =>
              match rest1 with
              | RTok.rpar :: rest2 => some (Regex.group (g + 1) inner, rest2, g1)
              | _ => none
      | _ => none

end

/-- Parse a pattern string into a regex and its number of capture groups;
`none` models `re.error` / unsupported syntax. -/
def parse_regex (pat : String) : Option (Regex × Nat) :=
  match rtokenize pat.data with
  | none => none
  | some toks =>
      match parseSeq (4 * toks.length + 4) toks 0 with
      | some (r, [], g) => some (r, g)
      | _ => none

/-- Captures recorded during a match: group number paired with the captured
characters; the most recent binding for a group shadows older ones (Python:
the last repetition wins). -/
abbrev Caps := List (Nat × List Char)

/-- Backtracking matcher in continuation-passing style, with Python's
semantics for the fragment: greedy `+` (longer repetitions tried first),
captures recorded when a group's body completes.  Fuel bounds call depth. -/
def rmatch : Nat → Regex → List Char → Caps → (List Char → Caps → Option Caps) → Option Caps
  | 0, _, _, _, _ => none
  | Nat.succ fuel, r, s, caps, k =>
      match r with
      | Regex.eps => k s caps
      | Regex.lit c =>
          match s with
          | [] => none
          | x :: rest => if x = c then k rest caps else none
      | Regex.dClass =>
          match s with
          | [] => none
          | x :: rest => if x.isDigit then k rest caps else none
      | Regex.anyChar =>
          match s with
          | [] => none
          | x :: rest => if x = '\n' then none else k rest caps
      | Regex.seq a b =>
          rmatch fuel a s caps (fun s1 c1 => rmatch fuel b s1 c1 k)
      | Regex.plus a =>
          rmatch fuel a s caps (fun s1 c1 =>
            match rmatch fuel (Regex.plus a) s1 c1 k with
            | some res => some res
            | none => k s1 c1)
      | Regex.group n a =>
          rmatch fuel a s caps (fun s1 c1 =>
            k s1 ((n, s.take (s.length - s1.length)) :: c1))

/-- Structural size of a regex, used to bound matcher fuel. -/
def rsize : Regex → Nat
  | Regex.eps => 1
  | Regex.lit _ => 1
  | Regex.dClass => 1
  | Regex.anyChar => 1
  | Regex.seq a b => rsize a + rsize b + 1
  | Regex.plus a => rsize a + 1
  | Regex.group _ a => rsize a + 1

/-- Attempt a match anchored at the start of `s`, returning the captures of
the (greedy, leftmost-biased) match Python would produce. -/
def matchHere (r : Regex) (s : List Char) : Option Caps :=
  rmatch ((s.length + 2) * (rsize r + 2) * 2) r s [] (fun _ caps => some caps)

/-- Embedding of `re.search`: try each start position left to right and
return the captures of the first successful match, or `none`. -/
def re_search : Regex → List Char → Option Caps
  | r, s =>
      match matchHere r s with
      | some caps => some caps
      | none =>
          match s with
          | [] => none
          | _ :: rest => re_search r rest

/-- Look up capture group `n` in the captures of a match: Python
`match.group(n)` for a participating group (most recent binding wins);
`none` models a group that did not participate. -/
def capLookup (caps : Caps) (n : Nat) : Option String :=
  (caps.find? (fun p => p.1 == n)).map (fun p => String.mk p.2)

/-! ### Version prober -/

/-- Outcome of spawning and awaiting one version command, as decided by the
subprocess-execution boundary: a raised execution error (command not found,
permission denied, undecodable output), a timeout of the
`asyncio.wait_for(proc.communicate(), timeout=timeout)` race, or normal
completion with an exit code and decoded stdout. -/
inductive ProbeOutcome where
  | execError (msg : String)
  | timedOut
  | done (returncode : Int) (stdout : String)
  deriving DecidableEq, Repr

/-- Python truthiness of `tool.version_command` (an `Optional[list[str]]`):
`None` and the empty list are falsy.  Embeds `if not tool.version_command`
(src/aiupdate.py line 67). -/
def pyTruthyCmd : Option (List String) → Bool
  | none => false
  | some l => !l.isEmpty

/-- Python `str.strip()` whitespace set (ASCII part). -/
def pySpace (c : Char) : Bool :=
  c = ' ' || c = '\t' || c = '\n' || c = '\r' || c = '\x0b' || c = '\x0c'

/-- Python `str.strip()` on a character list. -/
def pyStrip (l : List Char) : List Char :=
  ((l.dropWhile pySpace).reverse.dropWhile pySpace).reverse

/-- Python `str.strip()` on a string. -/
def pyStripS (s : String) : String := String.mk (pyStrip s.data)

/-- Default value of the `timeout` parameter of `get_version`
(src/aiupdate.py line 65: `timeout: float = 5.0`). -/
def get_version_default_timeout : ℚ := 5

/-- Body of `get_version` after the spawn (the outer `try` block,
src/aiupdate.py lines 70-89), with exceptions made explicit:
`.error` marks a raised exception that the enclosing `except Exception`
will swallow.  The first component is the returned version, the second
records whether `proc.kill()` was invoked (the timeout handler). -/
def get_version_body (tool : Tool) (outcome : ProbeOutcome) :
    Except String (Option String × Bool) :=
  match outcome with
  | ProbeOutcome.execError msg => Except.error msg
  | ProbeOutcome.timedOut => Except.ok (none, true)
  | ProbeOutcome.done rc out =>
      if rc ≠ 0 then Except.ok (none, false)
      else
        let output := pyStrip out.data
        match parse_regex tool.version_regex with
        | none => Except.error "re.error"
        | some (r, groups) =>
            match re_search r output with
            | none => Except.ok (none, false)
            | some caps =>
                if 1 ≤ groups then Except.ok (capLookup caps 1, false)
                else Except.error "IndexError: no such group"

/-- Embedding of `get_version` (src/aiupdate.py lines 65-91) together with
the kill flag: returns `None` when no version command is configured
(Python falsiness: absent or empty vector), otherwise runs the body and
swallows every exception into `None` (`except Exception: return None`). -/
def get_version_run (tool : Tool) (outcome : ProbeOutcome) : Option String × Bool :=
  if pyTruthyCmd tool.version_command = false then (none, false)
  else
    match get_version_body tool outcome with
    | Except.ok v => v
    | Except.error _ => (none, false)

/-- The version returned by `get_version`. -/
def get_version (tool : Tool) (outcome : ProbeOutcome) : Option String :=
  (get_version_run tool outcome).1

/-- Whether `get_version` forcibly terminated the probe process. -/
def get_version_killed (tool : Tool) (outcome : ProbeOutcome) : Bool :=
  (get_version_run tool outcome).2

/-- Fixture: a tool with no version command configured. -/
def noVersionTool : Tool :=
  { name := "noversion"
    command := ["true"]
    cwd := none
    version_command := none
    version_regex := "(\\d+\\.\\d+\\.\\d+)" }

/-- Fixture: a tool whose version pattern is the spec example
`\d+\.\d+\.\d+` — note: no capture group. -/
def grouplessTool : Tool :=
  { name := "groupless"
    command := ["true"]
    cwd := none
    version_command := some ["groupless", "--version"]
    version_regex := "\\d+\\.\\d+\\.\\d+" }

/-! ### Progress map

`run_updates` shares a dict `results: dict[str, UpdateResult | None]` between
the concurrent updaters (one write each) and the display loop (reads only).
It is modelled as an association list with Python dict semantics. -/

/-- The progress map: tool name to optional result. -/
abbrev PMap := List (String × Option UpdateResult)

/-- Raw lookup distinguishing an absent key (`none`) from a key bound to
`None` (`some none`). -/
def pmapFind (m : PMap) (k : String) : Option (Option UpdateResult) :=
  (m.find? (fun p => p.1 == k)).map (fun p => p.2)

/-- Python `dict.get(k)`: `None` both when the key is absent and when it is
bound to `None` (src/aiupdate.py line 158). -/
def pyGet (m : PMap) (k : String) : Option UpdateResult :=
  (pmapFind m k).getD none

/-- Python dict assignment `m[k] = v`: rebind the first occurrence of `k`
keeping its insertion position, or append a fresh binding. -/
def dictSet : PMap → String → Option UpdateResult → PMap
  | [], k, v => [(k, v)]
  | p :: rest, k, v => if p.1 == k then (k, v) :: rest else p :: dictSet rest k v

/-- Embedding of `update_tool` (src/aiupdate.py lines 118-144): build the
result from the command outcome and perform the single write
`results[tool.name] = result`. -/
def update_tool (tool : Tool) (outcome : ExecOutcome) (results : PMap) :
    UpdateResult × PMap :=
  let result := update_tool_result tool outcome
  (result, dictSet results tool.name (some result))

/-- The initial progress map of phase 2:
`{tool.name: None for tool in TOOLS}` (src/aiupdate.py line 187). -/
def initProgress : PMap := TOOLS.map (fun t => (t.name, none))

/-- The phase-2 update writes applied in completion order `order`: the
updaters are launched together by `asyncio.gather`, and each performs its
single write when its command finishes, in an arbitrary interleaving
(`order` ranges over permutations of the registry). -/
def runUpdatePhase (u : Tool → ExecOutcome) : List Tool → PMap → PMap
  | [], m => m
  | t :: rest, m => runUpdatePhase u rest (update_tool t (u t) m).2

/-! ### Status table and run_updates -/

/-- A rendered table: the terminal-rendering boundary consumes a header and
a matrix of cell strings (`rich.table.Table` with `add_column`/`add_row`). -/
structure RTable where
  header : List String
  rows : List (List String)
  deriving DecidableEq, Repr

/-- Python `x or y` on an optional string, as in `result.old_version or '?'`
(src/aiupdate.py line 171): `None` and `""` are falsy. -/
def pyOrStr : Option String → String → String
  | none, d => d
  | some s, d => if s = "" then d else s

/-- One row of the status table: the body of the `for tool in TOOLS` loop of
`make_status_table` (src/aiupdate.py lines 157-175), including the padding of
two-cell rows with an empty version cell when `show_versions` is set. -/
def status_row (results : PMap) (show_versions : Bool) (tool : Tool) : List String :=
  let result := pyGet results tool.name
  let row :=
    match result with
    | none => [tool.name, "[yellow]updating...[/yellow]"]
    | some r =>
        if r.success then
          [tool.name, "[green]done[/green]"]
            ++ (if show_versions then [format_version_change r.old_version r.new_version] else [])
        else
          [tool.name, "[red]failed[/red]"]
            ++ (if show_versions then ["[dim]" ++ pyOrStr r.old_version "?" ++ "[/dim]"] else [])
  if show_versions && row.length == 2 then row ++ [""] else row

/-- Embedding of `make_status_table` (src/aiupdate.py lines 147-177). -/
def make_status_table (results : PMap) (show_versions : Bool) : RTable :=
  { header := ["Tool", "Status"] ++ (if show_versions then ["Version"] else [])
    rows := TOOLS.map (status_row results show_versions) }

/-- Embedding of `get_all_versions` (src/aiupdate.py lines 94-102):
`asyncio.gather` over `get_one` preserves argument order, so the resulting
dict is built from `(tool.name, version)` pairs in registry order. -/
def get_all_versions (probe : Tool → ProbeOutcome) : List (String × Option String) :=
  TOOLS.map (fun t => (t.name, get_version t (probe t)))

/-- Python `dict.get(k)` on the versions dict. -/
def version_lookup (m : List (String × Option String)) (k : String) : Option String :=
  ((m.find? (fun p => p.1 == k)).map (fun p => p.2)).getD none

/-- The list `completed = await asyncio.gather(*tasks)` (src/aiupdate.py
line 199): `gather` returns results in argument order — one `UpdateResult`
per registry tool, in registry order, regardless of completion order. -/
def gather_update_results (u : Tool → ExecOutcome) : List UpdateResult :=
  TOOLS.map (fun t => update_tool_result t (u t))

/-- The list returned by `run_updates` (src/aiupdate.py lines 180-211):
phase-2 results in registry order, with the phase-1 and phase-3 versions
attached (lines 207-209). -/
def run_updates_results (p1 p3 : Tool → ProbeOutcome) (u : Tool → ExecOutcome) :
    List UpdateResult :=
  let old_versions := get_all_versions p1
  let new_versions := get_all_versions p3
  (gather_update_results u).map (fun r =>
    { r with
      old_version := version_lookup old_versions r.tool.name
      new_version := version_lookup new_versions r.tool.name })

/-! ### Phase-ordering trace -/

/-- Lifecycle events of one run: launch and resolution of the phase-1 probe,
the phase-2 update, and the phase-3 probe of each tool. -/
inductive PEvent where
  | preStart (name : String)
  | preEnd (name : String)
  | updStart (name : String)
  | updEnd (name : String)
  | postStart (name : String)
  | postEnd (name : String)
  deriving DecidableEq, Repr

/-- Event trace of `run_updates` (src/aiupdate.py lines 180-211) under
asyncio semantics: `await get_all_versions(TOOLS)` launches all phase-1
probes in registry order and returns only once all have resolved (in some
completion order `o1`); only then does `asyncio.gather(*tasks)` launch all
updates and join them (completion order `o2`); only after that `await`
returns does phase 3 launch and join the second round of probes (completion
order `o3`).  The `oK` lists range over permutations of the registry; the
display task writes nothing and is omitted. -/
def run_updates_trace (o1 o2 o3 : List Tool) : List PEvent :=
  TOOLS.map (fun t => PEvent.preStart t.name)
    ++ o1.map (fun t => PEvent.preEnd t.name)
    ++ TOOLS.map (fun t => PEvent.updStart t.name)
    ++ o2.map (fun t => PEvent.updEnd t.name)
    ++ TOOLS.map (fun t => PEvent.postStart t.name)
    ++ o3.map (fun t => PEvent.postEnd t.name)

/-- The segment an event belongs to: launches and resolutions of the three
phases, in temporal order. -/
def ekind : PEvent → Nat
  | PEvent.preStart _ => 0
  | PEvent.preEnd _ => 1
  | PEvent.updStart _ => 2
  | PEvent.updEnd _ => 3
  | PEvent.postStart _ => 4
  | PEvent.postEnd _ => 5

/-- Fixture: a failed result with both versions known, for exercising the
version-aware table. -/
def cexResult : UpdateResult :=
  { tool := codexTool
    success := false
    stdout := ""
    stderr := ""
    returncode := 1
    old_version := some "1.0.0"
    new_version := some "2.0.0" }

/-- Fixture: a progress map where `codex` has failed and the rest are still
updating. -/
def cexPMap : PMap :=
  [("codex", some cexResult), ("gemini", none), ("crush", none), ("claude", none)]

/-! ### Reporter and entry point -/

/-- Console output events of a run: printed lines, rendered tables, failure
panels (`rich.panel.Panel` with a title), and `sys.exit` calls — which the
source never makes. -/
inductive OutEvent where
  | line (s : String)
  | tableEv (t : RTable)
  | panelEv (title body : String)
  | exitEv (code : Int)
  deriving DecidableEq, Repr

/-- The combined output of a failed result (src/aiupdate.py lines 222-228):
a stream whose stripped text is empty is omitted; when both are kept they
are joined with a newline. -/
def failure_output (r : UpdateResult) : String :=
  let output := if pyStripS r.stdout ≠ "" then r.stdout else ""
  if pyStripS r.stderr ≠ "" then (if output ≠ "" then output ++ "\n" else output) ++ r.stderr
  else output

/-- The body of a failure panel:
`output or f"Exit code: {result.returncode}"` (src/aiupdate.py line 232). -/
def failure_panel_body (r : UpdateResult) : String :=
  if failure_output r ≠ "" then failure_output r
  else "Exit code: " ++ toString r.returncode

/-- The title of a failure panel (src/aiupdate.py line 233). -/
def failure_panel_title (r : UpdateResult) : String :=
  "[red]" ++ r.tool.name ++ " failed[/red]"

/-- Embedding of `show_failures` (src/aiupdate.py lines 214-236): nothing
when no result failed, else a blank line followed by one panel per failed
result, in result order. -/
def show_failures (results : List UpdateResult) : List OutEvent :=
  let failures := results.filter (fun r => !r.success)
  if failures.isEmpty then []
  else OutEvent.line ""
    :: failures.map (fun r => OutEvent.panelEv (failure_panel_title r) (failure_panel_body r))

/-- `success_count = sum(1 for r in results if r.success)`
(src/aiupdate.py line 251). -/
def success_count (results : List UpdateResult) : Nat :=
  (results.filter (fun r => r.success)).length

/-- `fail_count = len(results) - success_count` (src/aiupdate.py line 252). -/
def fail_count (results : List UpdateResult) : Nat :=
  results.length - success_count results

/-- The one-line summary printed by `main` (src/aiupdate.py lines 255-260). -/
def summary_line (results : List UpdateResult) : String :=
  if fail_count results = 0 then
    "[green]All " ++ toString (success_count results) ++ " tools updated successfully.[/green]"
  else
    "[yellow]" ++ toString (success_count results) ++ " succeeded, "
      ++ toString (fail_count results) ++ " failed.[/yellow]"

/-- Embedding of `main` (src/aiupdate.py lines 239-261) as its sequence of
console events, given the boundary oracles: the header, the two phase
banners printed inside `run_updates`, the final version-aware table built
from `{r.tool.name: r for r in results}`, the summary line, and the failure
panels when any tool failed.  The transient live-display renders are
timing-dependent repetitions of `make_status_table` (treated separately) and
are omitted. -/
def main_events (p1 p3 : Tool → ProbeOutcome) (u : Tool → ExecOutcome) : List OutEvent :=
  let results := run_updates_results p1 p3 u
  let final_results : PMap := results.map (fun r => (r.tool.name, some r))
  [OutEvent.line "[bold]Updating AI tools...[/bold]\n",
    OutEvent.line "[dim]Checking current versions...[/dim]",
    OutEvent.line "[dim]Checking new versions...[/dim]",
    OutEvent.line "",
    OutEvent.tableEv (make_status_table final_results true),
    OutEvent.line "",
    OutEvent.line (summary_line results)]
    ++ (if fail_count results = 0 then [] else show_failures results)

/-- The `sys.exit` events among the output events (the source emits none). -/
def sys_exit_events (evs : List OutEvent) : List Int :=
  evs.filterMap (fun e =>
    match e with
    | OutEvent.exitEv n => some n
    | _ => none)

/-- The process exit code: the first `sys.exit` code if any was ever issued,
else 0 — the CPython behaviour for a `main()` that returns normally
(src/aiupdate.py lines 264-265). -/
def process_exit_code (p1 p3 : Tool → ProbeOutcome) (u : Tool → ExecOutcome) : Int :=
  ((sys_exit_events (main_events p1 p3 u)).head?).getD 0

/-- Whether an output event is a failure panel titled for tool `name`. -/
def is_panel_for (name : String) : OutEvent → Bool
  | OutEvent.panelEv t _ => t == "[red]" ++ name ++ " failed[/red]"
  | _ => false

/-- Fixture: a successful `codex` result. -/
def okResult : UpdateResult :=
  { tool := codexTool
    success := true
    stdout := ""
    stderr := ""
    returncode := 0
    old_version := none
    new_version := none }

/-- Fixture: a failed `gemini` result with empty streams and exit code 3. -/
def badResult : UpdateResult :=
  { tool := geminiTool
    success := false
    stdout := ""
    stderr := ""
    returncode := 3
    old_version := none
    new_version := none }

/-- Fixture: a failed `crush` result with output on both streams. -/
def badResult2 : UpdateResult :=
  { tool := crushTool
    success := false
    stdout := "upgrading crush\n"
    stderr := "boom"
    returncode := 2
    old_version := none
    new_version := none }

/-- C1: for every tool, `update_tool` produces an `UpdateResult` whose
`success` field is true iff the update command's exit code is zero, preserving
the decoded stdout/stderr text and the exit code (in particular exit code 3
with "boom" on stderr yields success=false, returncode=3, stderr="boom"); and
if running the command raises, the result is success=false with the error
message as stderr and returncode exactly 1.  `update_tool_result` is a total
function, so one tool's failure cannot abort the run. -/
theorem update_tool_spec :
    (∀ (tool : Tool) (rc : Int) (out err : String),
      ((update_tool_result tool (ExecOutcome.completed rc out err)).success = true ↔ rc = 0)
      ∧ (update_tool_result tool (ExecOutcome.completed rc out err)).stdout = out
      ∧ (update_tool_result tool (ExecOutcome.completed rc out err)).stderr = err
      ∧ (update_tool_result tool (ExecOutcome.completed rc out err)).returncode = rc
      ∧ (update_tool_result tool (ExecOutcome.completed rc out err)).tool = tool)
    ∧ (∀ (tool : Tool) (msg : String),
      (update_tool_result tool (ExecOutcome.raised msg)).success = false
      ∧ (update_tool_result tool (ExecOutcome.raised msg)).stderr = msg
      ∧ (update_tool_result tool (ExecOutcome.raised msg)).returncode = 1
      ∧ (update_tool_result tool (ExecOutcome.raised msg)).stdout = "")
    ∧ ((update_tool_result codexTool (ExecOutcome.completed 3 "" "boom")).success = false
      ∧ (update_tool_result codexTool (ExecOutcome.completed 3 "" "boom")).returncode = 3
      ∧ (update_tool_result codexTool (ExecOutcome.completed 3 "" "boom")).stderr = "boom") := by
  refine ⟨fun tool rc out err => ⟨?_, rfl, rfl, ?_, rfl⟩, fun tool msg => ⟨rfl, rfl, rfl, rfl⟩, ?_⟩
  · simp [update_tool_result]
  · simp only [update_tool_result, pyOrInt]
    split
    · omega
    · rfl
  · exact ⟨rfl, rfl, rfl⟩

/-- C4 counterexample: `format_version_change None None` is the markup string
`"[dim]unknown[/dim]"`, not exactly `"unknown"` as the claim states. -/
theorem format_version_change_claim_false :
    format_version_change none none ≠ "unknown"
    ∧ format_version_change none none = "[dim]unknown[/dim]"
    ∧ format_version_change (some "1.2.3") (some "1.2.3") ≠ "1.2.3"
    ∧ format_version_change (some "1.2.3") (some "1.3.0") ≠ "1.2.3 -> 1.3.0" := by
  refine ⟨by decide, rfl, by decide, by decide⟩

/-- C4 amended: `format_version_change` is a pure function of the two optional
version strings realising the claimed four-way case split, except that the
returned strings carry rich style markup: both absent gives
`"[dim]unknown[/dim]"`, only new gives `"[dim]?[/dim] -> [green]{new}[/green]"`,
only old gives `"{old} -> [dim]?[/dim]"`, both equal gives `"[dim]{old}[/dim]"`
(no arrow), and both present and different gives
`"{old} -> [green]{new}[/green]"`. -/
theorem format_version_change_amended :
    format_version_change none none = "[dim]unknown[/dim]"
    ∧ (∀ new : String,
        format_version_change none (some new) = "[dim]?[/dim] -> [green]" ++ new ++ "[/green]")
    ∧ (∀ old : String,
        format_version_change (some old) none = old ++ " -> [dim]?[/dim]")
    ∧ (∀ old : String,
        format_version_change (some old) (some old) = "[dim]" ++ old ++ "[/dim]")
    ∧ (∀ old new : String, old ≠ new →
        format_version_change (some old) (some new) = old ++ " -> [green]" ++ new ++ "[/green]") := by
  refine ⟨rfl, fun new => rfl, fun old => rfl, fun old => ?_, fun old new h => ?_⟩
  · simp [format_version_change]
  · simp [format_version_change, h]

/-- C4 amended, witness: the amended theorem evaluated at the spec's example
inputs. -/
theorem format_version_change_amended_witness :
    format_version_change (some "1.2.3") (some "1.3.0")
      = "1.2.3" ++ " -> [green]" ++ "1.3.0" ++ "[/green]"
    ∧ ("1.2.3" : String) ≠ "1.3.0" := by
  exact ⟨format_version_change_amended.2.2.2.2 "1.2.3" "1.3.0" (by decide), by decide⟩

/-- C2: `get_version` is total (a Lean function returning `Option String`)
and returns `none` in every failure circumstance: no version command
configured (Python falsiness of the optional vector), timeout of the probe —
in which case the process is forcibly killed —, any raised execution error,
a non-zero exit code, and a pattern that does not match the output.  The
timeout parameter defaults to 5 time units. -/
theorem get_version_error_handling :
    (∀ (tool : Tool) (po : ProbeOutcome),
        pyTruthyCmd tool.version_command = false → get_version_run tool po = (none, false))
    ∧ (∀ tool : Tool, pyTruthyCmd tool.version_command = true →
        get_version_run tool ProbeOutcome.timedOut = (none, true))
    ∧ (∀ (tool : Tool) (msg : String), get_version tool (ProbeOutcome.execError msg) = none)
    ∧ (∀ (tool : Tool) (rc : Int) (out : String), rc ≠ 0 →
        get_version tool (ProbeOutcome.done rc out) = none)
    ∧ (∀ (tool : Tool) (out : String) (r : Regex) (g : Nat),
        parse_regex tool.version_regex = some (r, g) →
        re_search r (pyStrip out.data) = none →
        get_version tool (ProbeOutcome.done 0 out) = none)
    ∧ get_version_default_timeout = 5 := by
  refine ⟨?_, ?_, ?_, ?_, ?_, rfl⟩
  · intro tool po h
    simp [get_version_run, h]
  · intro tool h
    simp [get_version_run, h, get_version_body]
  · intro tool msg
    by_cases h : pyTruthyCmd tool.version_command <;>
      simp [get_version, get_version_run, h, get_version_body]
  · intro tool rc out h
    by_cases htr : pyTruthyCmd tool.version_command <;>
      simp [get_version, get_version_run, htr, get_version_body, h]
  · intro tool out r g hparse hsearch
    by_cases htr : pyTruthyCmd tool.version_command <;>
      simp [get_version, get_version_run, htr, get_version_body, hparse, hsearch]

/-- C2 witness: the failure circumstances evaluated at concrete probes. -/
theorem get_version_error_handling_witness :
    get_version_run noVersionTool (ProbeOutcome.done 0 "x 1.2.3") = (none, false)
    ∧ get_version_run codexTool ProbeOutcome.timedOut = (none, true)
    ∧ get_version codexTool (ProbeOutcome.execError "FileNotFoundError") = none
    ∧ get_version codexTool (ProbeOutcome.done 2 "codex 1.2.3") = none
    ∧ get_version codexTool (ProbeOutcome.done 0 "no digits here") = none := by
  have h := get_version_error_handling
  exact ⟨h.1 noVersionTool _ rfl, h.2.1 codexTool rfl, h.2.2.1 codexTool _,
    h.2.2.2.1 codexTool 2 "codex 1.2.3" (by decide),
    h.2.2.2.2.1 codexTool "no digits here" _ _ rfl rfl⟩

/-- C3 counterexample: with the spec's example pattern `\d+\.\d+\.\d+` —
which has no capture group — and output `"foo 2.0.1 bar"`, the pattern does
match the stripped output, yet `get_version` returns `none`, not `"2.0.1"`:
`match.group(1)` raises `IndexError`, which the enclosing `except Exception`
swallows into `None`. -/
theorem get_version_groupless_counterexample :
    get_version grouplessTool (ProbeOutcome.done 0 "foo 2.0.1 bar") ≠ some "2.0.1"
    ∧ get_version grouplessTool (ProbeOutcome.done 0 "foo 2.0.1 bar") = none
    ∧ (parse_regex grouplessTool.version_regex).elim false
        (fun p => (re_search p.1 (pyStrip ("foo 2.0.1 bar").data)).isSome && p.2 == 0) = true := by
  exact ⟨by decide, rfl, by decide⟩

/-- C3 amended: when the version process exits zero, `get_version` searches
the stripped decoded standard output for the first match of the tool's
version-extraction pattern and returns the first capture group, provided the
pattern defines at least one capture group (a group-less pattern makes
`match.group(1)` raise `IndexError`, swallowed into `none`); in particular,
with the registry's actual pattern `(\d+\.\d+\.\d+)` and output
`"foo 2.0.1 bar"` it returns `"2.0.1"`. -/
theorem get_version_capture_amended :
    (∀ (tool : Tool) (out : String) (r : Regex) (g : Nat) (caps : Caps),
        pyTruthyCmd tool.version_command = true →
        parse_regex tool.version_regex = some (r, g) →
        1 ≤ g →
        re_search r (pyStrip out.data) = some caps →
        get_version tool (ProbeOutcome.done 0 out) = capLookup caps 1)
    ∧ get_version codexTool (ProbeOutcome.done 0 "foo 2.0.1 bar") = some "2.0.1" := by
  refine ⟨?_, rfl⟩
  intro tool out r g caps htr hparse hg hsearch
  simp [get_version, get_version_run, htr, get_version_body, hparse, hsearch, hg]

/-- C3 amended, witness: the general capture statement instantiated at the
`codex` registry entry and the spec's example output. -/
theorem get_version_capture_amended_witness :
    get_version codexTool (ProbeOutcome.done 0 "foo 2.0.1 bar")
      = capLookup [(1, ['2', '.', '0', '.', '1'])] 1
    ∧ capLookup [(1, ['2', '.', '0', '.', '1'])] 1 = some "2.0.1" := by
  exact ⟨get_version_capture_amended.1 codexTool "foo 2.0.1 bar" _ _ _ rfl rfl
    (by decide) rfl, rfl⟩

/-- Setting key `k` makes `k` map to `v`. -/
theorem pmapFind_dictSet_self (m : PMap) (k : String) (v : Option UpdateResult) :
    pmapFind (dictSet m k v) k = some v := by
  induction m with
  | nil => simp [dictSet, pmapFind]
  | cons p rest ih =>
      by_cases h : (p.1 == k) = true
      · simp [dictSet, h, pmapFind]
      · simp only [dictSet, h, if_neg, Bool.false_eq_true, ite_false]
        simpa [pmapFind, List.find?, h] using ih

/-- Setting key `k` leaves every other key unchanged. -/
theorem pmapFind_dictSet_ne (m : PMap) (k : String) (v : Option UpdateResult)
    (k' : String) (h : k' ≠ k) :
    pmapFind (dictSet m k v) k' = pmapFind m k' := by
  have hkk : (k == k') = false := by
    simp [beq_eq_false_iff_ne]
    exact fun e => h e.symm
  induction m with
  | nil => simp [dictSet, pmapFind, hkk]
  | cons p rest ih =>
      by_cases hp : (p.1 == k) = true
      · have hp1 : p.1 = k := by simpa [beq_iff_eq] using hp
        have : (p.1 == k') = false := by
          simp [beq_eq_false_iff_ne, hp1]
          exact fun e => h e.symm
        simp [dictSet, hp, pmapFind, List.find?, hkk, this]
      · by_cases hq : (p.1 == k') = true
        · simp [dictSet, hp, pmapFind, List.find?, hq]
        · simp only [dictSet, hp, Bool.false_eq_true, ite_false]
          simpa [pmapFind, List.find?, hq] using ih

/-- Updaters for tools whose names avoid `k` leave key `k` unchanged. -/
theorem runUpdatePhase_not_mem (u : Tool → ExecOutcome) (order : List Tool)
    (k : String) (h : ∀ t ∈ order, t.name ≠ k) (m : PMap) :
    pmapFind (runUpdatePhase u order m) k = pmapFind m k := by
  induction order generalizing m with
  | nil => rfl
  | cons hd rest ih =>
      simp only [runUpdatePhase, update_tool]
      rw [ih (fun t ht => h t (List.mem_cons_of_mem _ ht)),
        pmapFind_dictSet_ne _ _ _ _ (fun e => h hd (List.mem_cons_self _ _) e.symm)]

/-- After the phase runs over a list of tools with pairwise distinct names,
each participating tool's key holds exactly its own updater's result. -/
theorem runUpdatePhase_write (u : Tool → ExecOutcome) (order : List Tool)
    (hnd : (order.map (fun t => t.name)).Nodup) (t : Tool) (ht : t ∈ order) (m : PMap) :
    pmapFind (runUpdatePhase u order m) t.name
      = some (some (update_tool_result t (u t))) := by
  induction order generalizing m with
  | nil => cases ht
  | cons hd rest ih =>
      simp only [List.map_cons, List.nodup_cons] at hnd
      rcases List.mem_cons.mp ht with rfl | hmem
      · simp only [runUpdatePhase, update_tool]
        rw [runUpdatePhase_not_mem]
        · exact pmapFind_dictSet_self _ _ _
        · intro t' ht' heq
          exact hnd.1 (heq ▸ List.mem_map_of_mem (fun x => x.name) ht')
      · exact ih hnd.2 hmem _

/-- Setting an already-present key preserves the key list. -/
theorem dictSet_keys_of_mem (m : PMap) (k : String) (v : Option UpdateResult)
    (h : k ∈ m.map (fun p => p.1)) :
    (dictSet m k v).map (fun p => p.1) = m.map (fun p => p.1) := by
  induction m with
  | nil => cases h
  | cons p rest ih =>
      by_cases hp : (p.1 == k) = true
      · have hp1 : p.1 = k := by simpa [beq_iff_eq] using hp
        simp [dictSet, hp, hp1]
      · have hp1 : p.1 ≠ k := by simpa [beq_eq_false_iff_ne] using (by simpa using hp)
        rw [List.map_cons] at h
        have hk : k ∈ rest.map (fun p => p.1) := by
          rcases List.mem_cons.mp h with e | hm
          · exact absurd e.symm hp1
          · exact hm
        simp [dictSet, hp, ih hk]

/-- The update phase never adds or removes keys when every written name is
already a key. -/
theorem runUpdatePhase_keys (u : Tool → ExecOutcome) (order : List Tool) (m : PMap)
    (h : ∀ t ∈ order, t.name ∈ m.map (fun p => p.1)) :
    (runUpdatePhase u order m).map (fun p => p.1) = m.map (fun p => p.1) := by
  induction order generalizing m with
  | nil => rfl
  | cons hd rest ih =>
      simp only [runUpdatePhase, update_tool]
      have hk := dictSet_keys_of_mem m hd.name
        (some (update_tool_result hd (u hd))) (h hd (List.mem_cons_self _ _))
      rw [ih _ (fun t ht => hk ▸ h t (List.mem_cons_of_mem _ ht)), hk]

/-- C5: across a run, the Progress Map has exactly one entry per registry
tool name (tool names are unique); every entry starts absent, and whatever
the completion order of the concurrent updaters, each entry is written
exactly once — by its own tool's `update_tool`, the only write to that key in
the whole run — and at the exit of the update phase no entry is absent. -/
theorem progress_map_invariant (u : Tool → ExecOutcome) (order : List Tool)
    (horder : order.Perm TOOLS) :
    ((TOOLS.map (fun t => t.name)).Nodup
      ∧ (runUpdatePhase u order initProgress).map (fun p => p.1)
          = TOOLS.map (fun t => t.name))
    ∧ (∀ t ∈ TOOLS, pmapFind initProgress t.name = some none)
    ∧ (∀ t ∈ TOOLS,
        pmapFind (runUpdatePhase u order initProgress) t.name
          = some (some (update_tool_result t (u t))))
    ∧ (∀ n ∈ TOOLS.map (fun t => t.name),
        (order.map (fun t => t.name)).count n = 1) := by
  have hkeys : initProgress.map (fun p => p.1) = TOOLS.map (fun t => t.name) := by
    simp [initProgress]
  have hnd : (order.map (fun t => t.name)).Nodup := by
    refine ((horder.map (fun t => t.name)).nodup_iff).mpr ?_
    decide
  refine ⟨⟨by decide, ?_⟩, by decide, ?_, ?_⟩
  · rw [runUpdatePhase_keys _ _ _ ?_, hkeys]
    intro t ht
    rw [hkeys]
    exact List.mem_map_of_mem _ (horder.mem_iff.mp ht)
  · intro t ht
    exact runUpdatePhase_write u order hnd t (horder.mem_iff.mpr ht) _
  · have hall : ∀ n ∈ TOOLS.map (fun t => t.name),
        (TOOLS.map (fun t => t.name)).count n = 1 := by decide
    intro n hn
    rw [(horder.map (fun t => t.name)).count_eq]
    exact hall n hn

/-- C5 witness: a run where every update raises, applied in registry order:
the `codex` entry ends present with its own result and its name is written
exactly once. -/
theorem progress_map_invariant_witness :
    pmapFind (runUpdatePhase (fun _ => ExecOutcome.raised "err") TOOLS initProgress)
        codexTool.name
      = some (some (update_tool_result codexTool (ExecOutcome.raised "err")))
    ∧ (TOOLS.map (fun t => t.name)).count codexTool.name = 1 := by
  have h := progress_map_invariant (fun _ => ExecOutcome.raised "err") TOOLS (List.Perm.refl _)
  exact ⟨h.2.2.1 codexTool (by decide), h.2.2.2 codexTool.name (by decide)⟩

/-- The result built by `update_tool` references the tool it ran for. -/
theorem update_tool_result_tool (tool : Tool) (outcome : ExecOutcome) :
    (update_tool_result tool outcome).tool = tool := by
  cases outcome <;> rfl

/-- Every status row leads with the tool's name. -/
theorem status_row_head (results : PMap) (sv : Bool) (tool : Tool) :
    (status_row results sv tool).head? = some tool.name := by
  unfold status_row
  cases h : pyGet results tool.name with
  | none => cases sv <;> simp [h]
  | some r => cases hr : r.success <;> cases sv <;> simp [h, hr]

/-- C8 counterexample: in the version-aware table built from a map where
`codex` is present and failed with old version `"1.0.0"` and new version
`"2.0.0"`, the status cell is the markup string `"[red]failed[/red]"`, not
`"failed"`, and the version cell is `"[dim]1.0.0[/dim]"` — the dimmed old
version — not the Version Delta Formatter's string, although both versions
are known. -/
theorem make_status_table_claim_false :
    (make_status_table cexPMap true).rows.get? 0
      = some ["codex", "[red]failed[/red]", "[dim]1.0.0[/dim]"]
    ∧ ("[red]failed[/red]" : String) ≠ "failed"
    ∧ ("[dim]1.0.0[/dim]" : String)
        ≠ format_version_change cexResult.old_version cexResult.new_version := by
  exact ⟨rfl, by decide, by decide⟩

/-- C8 amended: `make_status_table` renders one row per registry tool; the
status cell is `"[yellow]updating...[/yellow]"` when the tool's entry is
absent, `"[green]done[/green]"` when present with success, and
`"[red]failed[/red]"` when present with failure; in the version-aware
variant, successful rows render the Version Delta Formatter's string (whether
or not both versions are known), failed rows render the dimmed old version
(or `"?"` when absent) rather than the delta, and updating rows are padded
with an empty version cell. -/
theorem make_status_table_amended (results : PMap) (sv : Bool) (tool : Tool) :
    (make_status_table results sv).rows.length = TOOLS.length
    ∧ (pyGet results tool.name = none →
        status_row results sv tool
          = [tool.name, "[yellow]updating...[/yellow]"] ++ (if sv then [""] else []))
    ∧ (∀ r, pyGet results tool.name = some r → r.success = true →
        status_row results sv tool
          = [tool.name, "[green]done[/green]"]
            ++ (if sv then [format_version_change r.old_version r.new_version] else []))
    ∧ (∀ r, pyGet results tool.name = some r → r.success = false →
        status_row results sv tool
          = [tool.name, "[red]failed[/red]"]
            ++ (if sv then ["[dim]" ++ pyOrStr r.old_version "?" ++ "[/dim]"] else [])) := by
  refine ⟨by simp [make_status_table], ?_, ?_, ?_⟩
  · intro h
    unfold status_row
    cases sv <;> simp [h]
  · intro r h hs
    unfold status_row
    cases sv <;> simp [h, hs]
  · intro r h hs
    unfold status_row
    cases sv <;> simp [h, hs]

/-- C8 amended, witness: the failed-row case evaluated on the fixture map. -/
theorem make_status_table_amended_witness :
    status_row cexPMap true codexTool
      = [codexTool.name, "[red]failed[/red]"]
        ++ ["[dim]" ++ pyOrStr cexResult.old_version "?" ++ "[/dim]"] := by
  have h := make_status_table_amended cexPMap true codexTool
  simpa using h.2.2.2 cexResult rfl rfl

/-- C10: although update tasks may complete in any order, `run_updates`
returns exactly one `UpdateResult` per registry tool, in registry order
(`asyncio.gather` preserves argument order); the i-th result is the one the
progress map holds under the i-th tool's name whatever the completion order;
and every status table lists its rows in registry order — the report layout
is deterministic and independent of task completion order. -/
theorem results_registry_order (p1 p3 : Tool → ProbeOutcome) (u : Tool → ExecOutcome)
    (order : List Tool) (horder : order.Perm TOOLS) :
    (run_updates_results p1 p3 u).length = TOOLS.length
    ∧ (∀ i : Nat,
        ((run_updates_results p1 p3 u).get? i).map (fun r => r.tool) = TOOLS.get? i)
    ∧ (∀ i : Nat,
        ((gather_update_results u).get? i).map
            (fun r => pmapFind (runUpdatePhase u order initProgress) r.tool.name)
          = ((gather_update_results u).get? i).map (fun r => some (some r)))
    ∧ (∀ (results : PMap) (sv : Bool) (i : Nat),
        ((make_status_table results sv).rows.get? i).map (fun row => row.head?)
          = (TOOLS.get? i).map (fun t => some t.name)) := by
  have hnd : (order.map (fun t => t.name)).Nodup := by
    refine ((horder.map (fun t => t.name)).nodup_iff).mpr ?_
    decide
  refine ⟨by simp [run_updates_results, gather_update_results], ?_, ?_, ?_⟩
  · intro i
    simp only [run_updates_results, gather_update_results, List.map_map, List.get?_map]
    cases h : TOOLS.get? i with
    | none => rfl
    | some t => simp [update_tool_result_tool]
  · intro i
    cases h : (gather_update_results u).get? i with
    | none => rfl
    | some r =>
        have hr : r ∈ gather_update_results u := List.get?_mem h
        rcases List.mem_map.mp hr with ⟨t, htm, rfl⟩
        have hw := runUpdatePhase_write u order hnd t (horder.mem_iff.mpr htm)
        simp [update_tool_result_tool, hw]
  · intro results sv i
    simp only [make_status_table, List.get?_map]
    cases h : TOOLS.get? i with
    | none => rfl
    | some t => simp [status_row_head]

/-- A list of length four is a four-element literal. -/
theorem exists_four {α : Type} (l : List α) (h : l.length = 4) :
    ∃ a b c d, l = [a, b, c, d] := by
  rcases l with _ | ⟨a, l⟩
  · simp at h
  rcases l with _ | ⟨b, l⟩
  · simp at h
  rcases l with _ | ⟨c, l⟩
  · simp at h
  rcases l with _ | ⟨d, l⟩
  · simp at h
  rcases l with _ | ⟨e, l⟩
  · exact ⟨a, b, c, d, rfl⟩
  · simp at h

/-- Each index of the run trace carries the event kind of its 4-element
segment: launches in registry order, then resolutions, phase by phase. -/
theorem trace_kind (o1 o2 o3 : List Tool) (h1 : o1.length = 4) (h2 : o2.length = 4)
    (h3 : o3.length = 4) (i : Nat) (hi : i < (run_updates_trace o1 o2 o3).length) :
    ekind ((run_updates_trace o1 o2 o3).get ⟨i, hi⟩) = i / 4 := by
  obtain ⟨a1, a2, a3, a4, rfl⟩ := exists_four o1 h1
  obtain ⟨b1, b2, b3, b4, rfl⟩ := exists_four o2 h2
  obtain ⟨c1, c2, c3, c4, rfl⟩ := exists_four o3 h3
  have hi24 : i < 24 := by simpa [run_updates_trace, TOOLS] using hi
  interval_cases i <;> rfl

/-- C6: the three phases are strictly ordered, whatever the completion
orders: no update launch precedes any phase-1 probe resolution, no phase-3
probe launch precedes any update resolution; within each phase all per-tool
operations are launched before any resolves (fan-out), and every registry
tool's resolution event occurs in the trace (join-all). -/
theorem phase_ordering (o1 o2 o3 : List Tool)
    (h1 : o1.Perm TOOLS) (h2 : o2.Perm TOOLS) (h3 : o3.Perm TOOLS) :
    (∀ (i j : Nat) (hi : i < (run_updates_trace o1 o2 o3).length)
        (hj : j < (run_updates_trace o1 o2 o3).length) (n n' : String),
        (run_updates_trace o1 o2 o3).get ⟨i, hi⟩ = PEvent.updStart n →
        (run_updates_trace o1 o2 o3).get ⟨j, hj⟩ = PEvent.preEnd n' → j < i)
    ∧ (∀ (i j : Nat) (hi : i < (run_updates_trace o1 o2 o3).length)
        (hj : j < (run_updates_trace o1 o2 o3).length) (n n' : String),
        (run_updates_trace o1 o2 o3).get ⟨i, hi⟩ = PEvent.postStart n →
        (run_updates_trace o1 o2 o3).get ⟨j, hj⟩ = PEvent.updEnd n' → j < i)
    ∧ (∀ (i j : Nat) (hi : i < (run_updates_trace o1 o2 o3).length)
        (hj : j < (run_updates_trace o1 o2 o3).length) (n n' : String),
        (run_updates_trace o1 o2 o3).get ⟨i, hi⟩ = PEvent.preStart n →
        (run_updates_trace o1 o2 o3).get ⟨j, hj⟩ = PEvent.preEnd n' → i < j)
    ∧ (∀ (i j : Nat) (hi : i < (run_updates_trace o1 o2 o3).length)
        (hj : j < (run_updates_trace o1 o2 o3).length) (n n' : String),
        (run_updates_trace o1 o2 o3).get ⟨i, hi⟩ = PEvent.updStart n →
        (run_updates_trace o1 o2 o3).get ⟨j, hj⟩ = PEvent.updEnd n' → i < j)
    ∧ (∀ (i j : Nat) (hi : i < (run_updates_trace o1 o2 o3).length)
        (hj : j < (run_updates_trace o1 o2 o3).length) (n n' : String),
        (run_updates_trace o1 o2 o3).get ⟨i, hi⟩ = PEvent.postStart n →
        (run_updates_trace o1 o2 o3).get ⟨j, hj⟩ = PEvent.postEnd n' → i < j)
    ∧ (∀ t ∈ TOOLS,
        PEvent.preEnd t.name ∈ run_updates_trace o1 o2 o3
        ∧ PEvent.updEnd t.name ∈ run_updates_trace o1 o2 o3
        ∧ PEvent.postEnd t.name ∈ run_updates_trace o1 o2 o3) := by
  have l1 : o1.length = 4 := by simpa [TOOLS] using h1.length_eq
  have l2 : o2.length = 4 := by simpa [TOOLS] using h2.length_eq
  have l3 : o3.length = 4 := by simpa [TOOLS] using h3.length_eq
  have hk := trace_kind o1 o2 o3 l1 l2 l3
  have hlen : (run_updates_trace o1 o2 o3).length = 24 := by
    simp [run_updates_trace, l1, l2, l3, TOOLS]
  refine ⟨?_, ?_, ?_, ?_, ?_, ?_⟩
  · intro i j hi hj n n' ei ej
    have ki := hk i hi
    have kj := hk j hj
    rw [ei] at ki
    rw [ej] at kj
    simp only [ekind] at ki kj
    omega
  · intro i j hi hj n n' ei ej
    have ki := hk i hi
    have kj := hk j hj
    rw [ei] at ki
    rw [ej] at kj
    simp only [ekind] at ki kj
    omega
  · intro i j hi hj n n' ei ej
    have ki := hk i hi
    have kj := hk j hj
    rw [ei] at ki
    rw [ej] at kj
    simp only [ekind] at ki kj
    omega
  · intro i j hi hj n n' ei ej
    have ki := hk i hi
    have kj := hk j hj
    rw [ei] at ki
    rw [ej] at kj
    simp only [ekind] at ki kj
    omega
  · intro i j hi hj n n' ei ej
    have ki := hk i hi
    have kj := hk j hj
    rw [ei] at ki
    rw [ej] at kj
    simp only [ekind] at ki kj
    omega
  · intro t ht
    refine ⟨?_, ?_, ?_⟩
    · simp only [run_updates_trace, List.mem_append, List.mem_map]
      exact Or.inl (Or.inl (Or.inl (Or.inl (Or.inr ⟨t, h1.mem_iff.mpr ht, rfl⟩))))
    · simp only [run_updates_trace, List.mem_append, List.mem_map]
      exact Or.inl (Or.inl (Or.inr ⟨t, h2.mem_iff.mpr ht, rfl⟩))
    · simp only [run_updates_trace, List.mem_append, List.mem_map]
      exact Or.inr ⟨t, h3.mem_iff.mpr ht, rfl⟩

/-- C6 witness: with registry-order completions, every `codex` resolution
event occurs in the trace. -/
theorem phase_ordering_witness :
    PEvent.preEnd codexTool.name ∈ run_updates_trace TOOLS TOOLS TOOLS
    ∧ PEvent.updEnd codexTool.name ∈ run_updates_trace TOOLS TOOLS TOOLS
    ∧ PEvent.postEnd codexTool.name ∈ run_updates_trace TOOLS TOOLS TOOLS := by
  exact (phase_ordering TOOLS TOOLS TOOLS (List.Perm.refl _) (List.Perm.refl _)
    (List.Perm.refl _)).2.2.2.2.2 codexTool (by decide)

/-- C10 witness: the registry-order correspondence evaluated at concrete
oracles and index 2 (`crush`). -/
theorem results_registry_order_witness :
    ((run_updates_results (fun _ => ProbeOutcome.timedOut) (fun _ => ProbeOutcome.timedOut)
        (fun _ => ExecOutcome.raised "err")).get? 2).map (fun r => r.tool) = TOOLS.get? 2 := by
  exact (results_registry_order (fun _ => ProbeOutcome.timedOut)
    (fun _ => ProbeOutcome.timedOut) (fun _ => ExecOutcome.raised "err")
    TOOLS (List.Perm.refl _)).2.1 2

/-- Panel titles determine the tool name. -/
theorem panel_title_inj (a b : String)
    (h : "[red]" ++ a ++ " failed[/red]" = "[red]" ++ b ++ " failed[/red]") : a = b := by
  have hd := congrArg String.data h
  rw [String.data_append, String.data_append, String.data_append, String.data_append] at hd
  exact String.ext (List.append_cancel_left (List.append_cancel_right hd))

/-- The panel-recognition predicate agrees with tool-name equality. -/
theorem is_panel_for_title (r : UpdateResult) (n : String) :
    is_panel_for n (OutEvent.panelEv (failure_panel_title r) (failure_panel_body r))
      = (r.tool.name == n) := by
  simp only [is_panel_for, failure_panel_title]
  by_cases h : r.tool.name = n
  · subst h
    simp
  · have h1 : ("[red]" ++ r.tool.name ++ " failed[/red]"
        == "[red]" ++ n ++ " failed[/red]") = false :=
      beq_eq_false_iff_ne.mpr (fun e => h (panel_title_inj _ _ e))
    have h2 : (r.tool.name == n) = false := beq_eq_false_iff_ne.mpr h
    rw [h1, h2]

/-- `countP` only depends on the predicate's values on the list. -/
theorem countP_ext {α : Type} (p q : α → Bool) (l : List α) (h : ∀ a ∈ l, p a = q a) :
    l.countP p = l.countP q := by
  induction l with
  | nil => rfl
  | cons a l ih =>
      rw [List.countP_cons, List.countP_cons, h a (List.mem_cons_self _ _),
        ih (fun b hb => h b (List.mem_cons_of_mem _ hb))]

/-- The panels of `show_failures` count exactly the failed results carrying
a given tool name. -/
theorem show_failures_countP (results : List UpdateResult) (n : String) :
    (show_failures results).countP (is_panel_for n)
      = (results.filter (fun r => !r.success)).countP (fun r => r.tool.name == n) := by
  unfold show_failures
  by_cases hfe : ((results.filter (fun r => !r.success)).isEmpty) = true
  · have hnil : results.filter (fun r => !r.success) = [] := List.isEmpty_iff.mp hfe
    simp [hfe, hnil]
  · simp only [hfe, ite_false, Bool.false_eq_true]
    simp only [List.countP_cons, List.countP_map]
    have hline : is_panel_for n (OutEvent.line "") = false := rfl
    rw [hline]
    simp only [Bool.false_eq_true, if_false, Nat.add_zero]
    exact countP_ext _ _ _ (fun r hr => by
      simpa [Function.comp] using is_panel_for_title r n)

/-- Successes and failures partition the result list. -/
theorem succ_fail_partition (results : List UpdateResult) :
    (results.filter (fun r => r.success)).length
      + (results.filter (fun r => !r.success)).length = results.length := by
  induction results with
  | nil => rfl
  | cons r rest ih => cases h : r.success <;> simp [List.filter_cons, h] <;> omega

/-- A string with a nonempty left component is nonempty. -/
theorem append_ne_empty_of_left (a b : String) (h : a ≠ "") : a ++ b ≠ "" := by
  intro e
  apply h
  have hd : a.data ++ b.data = [] := by
    have := congrArg String.data e
    rwa [String.data_append] at this
  exact String.ext (List.append_eq_nil.mp hd).1

/-- When `fail_count` is zero every result succeeded. -/
theorem fail_count_zero_filter (results : List UpdateResult)
    (h : fail_count results = 0) :
    results.filter (fun r => !r.success) = [] := by
  have hpart := succ_fail_partition results
  have hle := List.length_filter_le (fun r => r.success) results
  simp only [fail_count, success_count] at h
  exact List.length_eq_zero.mp (by omega)

/-- C7: after the run completes, `main` prints a one-line summary counting
succeeded versus failed tools; `show_failures` emits exactly one detail
panel per failed tool (tool names being distinct), whose body is the
combined stdout and stderr — the bare exit code when both streams are empty
— and emits nothing when every tool succeeded. -/
theorem reporter_summary_and_panels :
    (∀ results : List UpdateResult, fail_count results ≠ 0 →
        summary_line results
          = "[yellow]" ++ toString (success_count results) ++ " succeeded, "
            ++ toString (fail_count results) ++ " failed.[/yellow]")
    ∧ (∀ (results : List UpdateResult) (n : String),
        (show_failures results).countP (is_panel_for n)
          = (results.filter (fun r => !r.success)).countP (fun r => r.tool.name == n))
    ∧ (∀ results : List UpdateResult, (results.map (fun r => r.tool.name)).Nodup →
        ∀ r ∈ results, r.success = false →
          (show_failures results).countP (is_panel_for r.tool.name) = 1)
    ∧ (∀ r : UpdateResult, r.stdout = "" → r.stderr = "" →
        failure_panel_body r = "Exit code: " ++ toString r.returncode)
    ∧ (∀ r : UpdateResult, pyStripS r.stdout ≠ "" → pyStripS r.stderr ≠ "" →
        failure_panel_body r = r.stdout ++ "\n" ++ r.stderr)
    ∧ (∀ results : List UpdateResult, (∀ r ∈ results, r.success = true) →
        show_failures results = [])
    ∧ (∀ (p1 p3 : Tool → ProbeOutcome) (u : Tool → ExecOutcome),
        ∃ pre, main_events p1 p3 u
          = pre ++ [OutEvent.line (summary_line (run_updates_results p1 p3 u))]
            ++ show_failures (run_updates_results p1 p3 u)) := by
  refine ⟨?_, show_failures_countP, ?_, ?_, ?_, ?_, ?_⟩
  · intro results h
    simp [summary_line, h]
  · intro results hnd r hr hs
    rw [show_failures_countP]
    have hcount : (results.map (fun r' => r'.tool.name)).count r.tool.name = 1 := by
      have hmem : r.tool.name ∈ results.map (fun r' => r'.tool.name) :=
        List.mem_map_of_mem _ hr
      have hle := List.nodup_iff_count_le_one.mp hnd r.tool.name
      have hpos := List.count_pos_iff.mpr hmem
      omega
    have hcountP : results.countP (fun r' => r'.tool.name == r.tool.name) = 1 := by
      rw [List.count_eq_countP, List.countP_map] at hcount
      simpa [Function.comp] using hcount
    have hle2 : (results.filter (fun r' => !r'.success)).countP
        (fun r' => r'.tool.name == r.tool.name) ≤ 1 := by
      rw [List.countP_filter]
      calc results.countP (fun a => (a.tool.name == r.tool.name) && !a.success)
          ≤ results.countP (fun r' => r'.tool.name == r.tool.name) :=
            List.countP_mono_left (fun x hx hpx => by
              simp only [Bool.and_eq_true] at hpx
              exact hpx.1)
        _ = 1 := hcountP
    have hpos2 : 0 < (results.filter (fun r' => !r'.success)).countP
        (fun r' => r'.tool.name == r.tool.name) :=
      List.countP_pos_iff.mpr ⟨r, List.mem_filter.mpr ⟨hr, by simp [hs]⟩, by simp⟩
    omega
  · intro r h1 h2
    have hps : pyStripS "" = "" := rfl
    simp [failure_panel_body, failure_output, h1, h2, hps]
  · intro r h1 h2
    have hne : r.stdout ≠ "" := fun e => h1 (by rw [e]; rfl)
    have hout : failure_output r = r.stdout ++ "\n" ++ r.stderr := by
      simp [failure_output, h1, h2, hne]
    have hne2 : r.stdout ++ "\n" ++ r.stderr ≠ "" :=
      append_ne_empty_of_left _ _ (append_ne_empty_of_left _ _ hne)
    simp [failure_panel_body, hout, hne2]
  · intro results hall
    have hfil : results.filter (fun r => !r.success) = [] :=
      List.filter_eq_nil_iff.mpr (fun a ha => by simp [hall a ha])
    simp [show_failures, hfil]
  · intro p1 p3 u
    refine ⟨[OutEvent.line "[bold]Updating AI tools...[/bold]\n",
      OutEvent.line "[dim]Checking current versions...[/dim]",
      OutEvent.line "[dim]Checking new versions...[/dim]",
      OutEvent.line "",
      OutEvent.tableEv (make_status_table
        ((run_updates_results p1 p3 u).map (fun r => (r.tool.name, some r))) true),
      OutEvent.line ""], ?_⟩
    by_cases h : fail_count (run_updates_results p1 p3 u) = 0
    · have hempty : show_failures (run_updates_results p1 p3 u) = [] := by
        simp [show_failures, fail_count_zero_filter _ h]
      simp [main_events, h, hempty]
    · simp [main_events, h]

/-- C7 witness: a two-result run with one success and one failure — the
summary reads "1 succeeded, 1 failed", exactly one panel names the failing
tool, an empty-stream failure shows its bare exit code, a two-stream failure
shows stdout and stderr joined by a newline, and an all-success run emits no
panels. -/
theorem reporter_summary_and_panels_witness :
    summary_line [okResult, badResult] = "[yellow]1 succeeded, 1 failed.[/yellow]"
    ∧ (∃ a b : String,
        summary_line [okResult, badResult] = a ++ "1 succeeded, 1 failed" ++ b)
    ∧ (show_failures [okResult, badResult]).countP (is_panel_for geminiTool.name) = 1
    ∧ failure_panel_body badResult = "Exit code: " ++ toString badResult.returncode
    ∧ failure_panel_body badResult2 = badResult2.stdout ++ "\n" ++ badResult2.stderr
    ∧ show_failures [okResult] = [] := by
  have h := reporter_summary_and_panels
  have hsum : summary_line [okResult, badResult] = "[yellow]1 succeeded, 1 failed.[/yellow]" :=
    (h.1 [okResult, badResult] (by decide)).trans (by decide)
  exact ⟨hsum, ⟨"[yellow]", ".[/yellow]", hsum.trans (by decide)⟩,
    h.2.2.1 [okResult, badResult] (by decide) badResult (by decide) rfl,
    h.2.2.2.1 badResult rfl rfl,
    h.2.2.2.2.1 badResult2 (by decide) (by decide),
    h.2.2.2.2.2.1 [okResult] (by decide)⟩

/-- The failure panels carry no exit event. -/
theorem sys_exit_events_panels (l : List UpdateResult) :
    sys_exit_events (l.map (fun r =>
      OutEvent.panelEv (failure_panel_title r) (failure_panel_body r))) = [] := by
  induction l with
  | nil => rfl
  | cons r rest ih => simp [sys_exit_events, List.filterMap_cons]

/-- `show_failures` carries no exit event. -/
theorem sys_exit_events_show_failures (results : List UpdateResult) :
    sys_exit_events (show_failures results) = [] := by
  unfold show_failures
  by_cases hfe : ((results.filter (fun r => !r.success)).isEmpty) = true
  · simp [hfe, sys_exit_events]
  · simp only [hfe, ite_false, Bool.false_eq_true]
    simp [sys_exit_events, List.filterMap_cons]

/-- C9: the entry point runs the full three-phase sequence (its output
contains the final version-aware table built from the run's results) and the
process exit code is 0 for every outcome of every tool — the source never
issues a `sys.exit`, so failures surface only through the printed summary
and panels. -/
theorem exit_code_always_zero (p1 p3 : Tool → ProbeOutcome) (u : Tool → ExecOutcome) :
    process_exit_code p1 p3 u = 0
    ∧ sys_exit_events (main_events p1 p3 u) = []
    ∧ OutEvent.tableEv (make_status_table
        ((run_updates_results p1 p3 u).map (fun r => (r.tool.name, some r))) true)
      ∈ main_events p1 p3 u := by
  have hmain : sys_exit_events (main_events p1 p3 u) = [] := by
    unfold main_events
    by_cases h : fail_count (run_updates_results p1 p3 u) = 0
    · simp [h, sys_exit_events]
    · simp only [h, ite_false]
      have := sys_exit_events_show_failures (run_updates_results p1 p3 u)
      simpa [sys_exit_events, List.filterMap_append, List.filterMap_cons] using this
  refine ⟨?_, hmain, ?_⟩
  · simp [process_exit_code, hmain]
  · unfold main_events
    by_cases h : fail_count (run_updates_results p1 p3 u) = 0 <;> simp [h]

end AiUpdate

